import Mathlib

/-!
Shallow embedding of the job status monitoring service
(webhook delivery engine, job lifecycle handlers, expiry sweeper),
translated from the JavaScript sources:

* `src/utils/webhook.js`  — WebhookManager (sendWebhook, shouldRetry, sendWebhooks)
* `src/routes/jobs.js`    — PUT /api/jobs/:id, DELETE /api/jobs/:id,
                            POST /api/jobs/bulk (update case), triggerWebhooks
* `src/config/knexfile.js` — CleanupService.cleanupExpiredJobs

Side effects (HTTP attempts, backoff sleeps, database writes, cache
invalidations, log lines, the HTTP response) are recorded in an explicit
effect trace; pure reads are not traced.  Concurrent sends inside one
batch of `sendWebhooks` are serialized in listed order in the trace; the
properties proved below (effect membership and the position of the
response relative to delivery effects) are invariant under the
interleaving chosen.
-/

/-- Event taxonomy of the webhook system (`events` column / payload `event`). -/
inductive EventType where
  | status_change
  | progress_update
  | completion
  | failure
deriving DecidableEq, Repr

/-- Job status enum from the validation schema and jobs table. -/
inductive JobStatus where
  | pending
  | running
  | completed
  | failed
  | cancelled
deriving DecidableEq, Repr

/-- A row of the `jobs` table (fields relevant to the verified claims).
Timestamps and `ttl` are in milliseconds, as integers. -/
structure Job where
  id : String
  name : String
  status : JobStatus
  progress : Int
  ttl : Option Int
  created_at : Int
  updated_at : Int
  completed_at : Option Int
deriving DecidableEq, Repr

/-- A row of the `webhooks` table (fields relevant to delivery fan-out). -/
structure WebhookSub where
  id : String
  url : String
  events : List EventType
  is_active : Bool
deriving DecidableEq, Repr

/-- An update request body (`req.body` validated by `updateJobSchema`);
only the fields that interact with the verified claims are modelled,
the others are applied verbatim and touch no claim. -/
structure JobPatch where
  status : Option JobStatus
  progress : Option Int
deriving DecidableEq, Repr

/-- Observable side effects, in program order. -/
inductive Effect where
  | httpPost
  | sleep (ms : Nat)
  | dbInsert (table : String)
  | dbUpdate (table : String)
  | dbDelete (table : String)
  | cacheDel (key : String)
  | cacheSet (key : String)
  | logInfo
  | logError
  | respond (httpStatus : Nat)
  | trigger (ev : EventType)
deriving DecidableEq, Repr

/-- Outcome of one axios POST, as seen by the `try` block of
`WebhookManager.sendWebhook`: the promise resolves with a status, or
rejects with an error carrying `error.response.status`, or rejects with
a network error carrying `error.code`. -/
inductive AxiosResult where
  | ok (httpStatus : Nat)
  | errResp (httpStatus : Nat)
  | errCode (code : String)
deriving DecidableEq, Repr

/-- The shape of a caught JavaScript error as inspected by `shouldRetry`:
an optional `error.code` and an optional `error.response.status`. -/
structure JsError where
  code : Option String
  responseStatus : Option Nat
deriving DecidableEq, Repr

/-- Embedding of `WebhookManager.shouldRetry` (webhook.js lines 69-80): retry on
ECONNRESET / ETIMEDOUT network errors and on HTTP status at least 500. -/
def shouldRetry (e : JsError) : Bool :=
  if e.code = some "ECONNRESET" || e.code = some "ETIMEDOUT" then
    true
  else
    match e.responseStatus with
    | some s => decide (500 ≤ s)
    | none => false

/-- The `try` block of `sendWebhook` (webhook.js lines 20-43) for one
attempt: a resolved response with status in [200,300) returns `true`;
a resolved response outside that range throws a plain `Error` (no code,
no response field); a rejected promise rethrows the axios error. -/
def tryAttempt : AxiosResult → Except JsError Bool
  | .ok s => if 200 ≤ s ∧ s < 300 then .ok true else .error ⟨none, none⟩
  | .errResp s => .error ⟨none, some s⟩
  | .errCode c => .error ⟨some c, none⟩

/-- Recursion core of `WebhookManager.sendWebhook` (webhook.js lines
19-62).  `oracle k` is the axios outcome of the attempt with retry
counter `k`; `budget` encodes `maxRetries - retryCount`, so the source
guard `retryCount < this.maxRetries` is exactly `budget > 0`.  On a
caught retryable error with budget left, the code sleeps
`2 ^ retryCount * 1000` ms and recurses with the counter incremented;
otherwise it resolves `false`. -/
def sendWebhookAux (oracle : Nat → AxiosResult) :
    Nat → Nat → Except JsError Bool × List Effect
  | k, 0 =>
    match tryAttempt (oracle k) with
    | .ok b => (.ok b, [.httpPost, .logInfo])
    | .error _ => (.ok false, [.httpPost, .logError])
  | k, budget + 1 =>
    match tryAttempt (oracle k) with
    | .ok b => (.ok b, [.httpPost, .logInfo])
    | .error e =>
      if shouldRetry e then
        let rest := sendWebhookAux oracle (k + 1) budget
        (rest.1, .httpPost :: .logError :: .logInfo ::
          .sleep (2 ^ k * 1000) :: rest.2)
      else (.ok false, [.httpPost, .logError])

/-- Embedding of `WebhookManager.sendWebhook url payload headers retryCount` with the
configured `maxRetries`, abstracted over the endpoint behaviour
`oracle`.  Returns the settled promise value (an exception would be
`Except.error`) together with the effect trace. -/
def sendWebhook (maxRetries : Nat) (oracle : Nat → AxiosResult)
    (retryCount : Nat) : Except JsError Bool × List Effect :=
  sendWebhookAux oracle retryCount (maxRetries - retryCount)

/-- Number of HTTP POST attempts recorded in a trace. -/
def countHttp : List Effect → Nat
  | [] => 0
  | .httpPost :: t => countHttp t + 1
  | _ :: t => countHttp t

/-- Number of webhook hand-offs for event `ev` recorded in a trace. -/
def countTrigger (ev : EventType) : List Effect → Nat
  | [] => 0
  | .trigger e :: t => (if e = ev then 1 else 0) + countTrigger ev t
  | _ :: t => countTrigger ev t

/-- The backoff delays recorded in a trace, in order, in milliseconds. -/
def sleepsOf : List Effect → List Nat
  | [] => []
  | .sleep n :: t => n :: sleepsOf t
  | _ :: t => sleepsOf t

/-- Embedding of `WebhookManager.sendWebhooks` (webhook.js lines 88-108): process the
webhook list in slices of `batchSize`, all sends of a slice settled
together (serialized here in listed order), with a 100 ms pause between
slices.  `fuel` starts at the list length; since each step drops at
least one element for `batchSize ≥ 1` (the only values reachable from
the source configuration), the fuel never runs out. -/
def sendWebhooksGo (mr batchSize : Nat) (oracle : String → Nat → AxiosResult) :
    Nat → List WebhookSub → List Effect
  | 0, _ => []
  | _, [] => []
  | fuel + 1, whs =>
    let batchTrace :=
      ((whs.take batchSize).map fun w => (sendWebhook mr (oracle w.url) 0).2).flatten
    let rest := whs.drop batchSize
    batchTrace ++
      (if rest.isEmpty then []
       else Effect.sleep 100 :: sendWebhooksGo mr batchSize oracle fuel rest)

/-- Effect trace of `WebhookManager.sendWebhooks webhooks payload`. -/
def sendWebhooks (mr batchSize : Nat) (oracle : String → Nat → AxiosResult)
    (whs : List WebhookSub) : List Effect :=
  sendWebhooksGo mr batchSize oracle whs.length whs

/-- The webhook registry query of `triggerWebhooks` (jobs router, lines
434-437): `is_active = true` and the event contained in `events`. -/
def matchingWebhooks (whs : List WebhookSub) (ev : EventType) : List WebhookSub :=
  whs.filter fun w => w.is_active && w.events.contains ev

/-- The `try` block of `triggerWebhooks` (jobs router, lines 432-441):
query the registry (which may fail), and if any webhook matches, build
the payload (pure) and fan out.  The registry argument is the outcome
of the database query. -/
def triggerBody (registry : Except String (List WebhookSub))
    (oracle : String → Nat → AxiosResult) (mr batchSize : Nat)
    (ev : EventType) : Except String (List Effect) := do
  let whs ← registry
  let m := matchingWebhooks whs ev
  if m.isEmpty then pure [] else pure (sendWebhooks mr batchSize oracle m)

/-- Embedding of `triggerWebhooks(job, eventType, previousState)` (jobs router, lines
431-445): the hand-off is recorded as a `trigger` effect; any error of
the body is caught and logged (`logger.error`), never rethrown. -/
def triggerWebhooks (registry : Except String (List WebhookSub))
    (oracle : String → Nat → AxiosResult) (mr batchSize : Nat)
    (ev : EventType) : List Effect :=
  Effect.trigger ev ::
    (match triggerBody registry oracle mr batchSize ev with
     | .ok effs => effs
     | .error _ => [.logError])

/-- Result of a request handler: HTTP status of the response, the jobs
table afterwards, and the effect trace. -/
structure HandlerResult where
  httpStatus : Nat
  db : List Job
  trace : List Effect
deriving Repr

/-- Application of `updateData`, that is `{...req.body, updated_at: now}` plus the
separately computed `completed_at` value, applied to the matched row. -/
def applyPatch (j : Job) (p : JobPatch) (now : Int) (stamp : Option Int) : Job :=
  { j with
    status := p.status.getD j.status
    progress := p.progress.getD j.progress
    updated_at := now
    completed_at := stamp }

/-- Condition `req.body.status && req.body.status !== currentJob.status`
(jobs router, line 262); present status enum values are all truthy. -/
def statusChangedB (p : JobPatch) (cur : Job) : Bool :=
  match p.status with
  | some s => s != cur.status
  | none => false

/-- Condition `req.body.progress !== undefined && req.body.progress !== currentJob.progress`
(jobs router, line 267). -/
def progressChangedB (p : JobPatch) (cur : Job) : Bool :=
  match p.progress with
  | some q => q != cur.progress
  | none => false

/-- PUT /api/jobs/:id (jobs router, lines 232-281).  Load the current
row; 404 if absent.  Stamp `completed_at` only when the patch sets
status to completed and the current `completed_at` is unset.  Update
the row, clear the cache entry, then trigger `status_change` and
`progress_update` webhooks under their respective conditions (each
hand-off awaited), log, and respond 200. -/
def putJob (mr batchSize : Nat) (registry : Except String (List WebhookSub))
    (oracle : String → Nat → AxiosResult)
    (db : List Job) (id : String) (p : JobPatch) (now : Int) : HandlerResult :=
  match db.find? (fun j => j.id == id) with
  | none => ⟨404, db, [.respond 404]⟩
  | some cur =>
    let stamp :=
      if p.status = some .completed ∧ cur.completed_at = none then some now
      else cur.completed_at
    let updated := applyPatch cur p now stamp
    let db' := db.map fun j => if j.id == id then updated else j
    let t1 :=
      if statusChangedB p cur then
        triggerWebhooks registry oracle mr batchSize .status_change
      else []
    let t2 :=
      if progressChangedB p cur then
        triggerWebhooks registry oracle mr batchSize .progress_update
      else []
    ⟨200, db',
      Effect.dbUpdate "jobs" :: Effect.cacheDel ("job:" ++ id) ::
        (t1 ++ t2 ++ [Effect.logInfo, Effect.respond 200])⟩

/-- Result of one bulk operation item. -/
structure BulkItemResult where
  success : Bool
  db : List Job
  trace : List Effect
deriving Repr

/-- The `update` case of POST /api/jobs/bulk (jobs router, lines
368-391).  `updateData = {...op.data, updated_at: now}` with `id`
removed; when `updateData.status` equals `completed` the handler stamps
`completed_at = now` unconditionally (no check of the current value).
On a matched row: cache cleared, a `status_change` webhook triggered
unconditionally, success recorded; otherwise a not-found failure. -/
def bulkUpdateOp (mr batchSize : Nat) (registry : Except String (List WebhookSub))
    (oracle : String → Nat → AxiosResult)
    (db : List Job) (opId : String) (p : JobPatch) (now : Int) : BulkItemResult :=
  match db.find? (fun j => j.id == opId) with
  | none => ⟨false, db, [.dbUpdate "jobs"]⟩
  | some cur =>
    let stamp :=
      if p.status = some .completed then some now else cur.completed_at
    let updated := applyPatch cur p now stamp
    let db' := db.map fun j => if j.id == opId then updated else j
    ⟨true, db',
      Effect.dbUpdate "jobs" :: Effect.cacheDel ("job:" ++ opId) ::
        triggerWebhooks registry oracle mr batchSize .status_change⟩

/-- DELETE /api/jobs/:id (jobs router, lines 302-323): delete by id,
404 when nothing was deleted, otherwise clear the cache entry, log and
respond 200.  No webhook is triggered on either path. -/
def deleteJob (db : List Job) (id : String) : List Job × List Effect :=
  let remaining := db.filter fun j => j.id != id
  if db.length - remaining.length = 0 then
    (remaining, [.dbDelete "jobs", .respond 404])
  else
    (remaining,
      [.dbDelete "jobs", .cacheDel ("job:" ++ id), .logInfo, .respond 200])

/-- The expiry predicate of `CleanupService.cleanupExpiredJobs`
(knexfile.js lines 418-422): `ttl` not null, `ttl > 0`, and
`created_at + ttl milliseconds < now`. -/
def expiredB (j : Job) (now : Int) : Bool :=
  match j.ttl with
  | some t => decide (0 < t) && decide (j.created_at + t < now)
  | none => false

/-- Embedding of `CleanupService.cleanupExpiredJobs` (knexfile.js lines 412-449):
select the expired jobs, return early when none; otherwise delete them
in one batch by id and clear the cache entry of each deleted id.  No
webhook is triggered. -/
def cleanupExpiredJobs (db : List Job) (now : Int) : List Job × List Effect :=
  let expired := db.filter fun j => expiredB j now
  if expired.isEmpty then (db, [])
  else
    let ids := expired.map fun j => j.id
    (db.filter fun j => !(ids.contains j.id),
      Effect.dbDelete "jobs" ::
        (ids.map fun i => Effect.cacheDel ("job:" ++ i)) ++ [Effect.logInfo])


/-! ### Lemmas about the retry core -/

/-- The axios outcome is a rejection (or thrown error) that `shouldRetry`
classifies as retryable. -/
def retryableFail (o : AxiosResult) : Prop :=
  ∃ e, tryAttempt o = Except.error e ∧ shouldRetry e = true

lemma sendWebhookAux_ok (oracle : Nat → AxiosResult) (k budget : Nat) (b : Bool)
    (h : tryAttempt (oracle k) = .ok b) :
    sendWebhookAux oracle k budget = (.ok b, [.httpPost, .logInfo]) := by
  cases budget <;> simp [sendWebhookAux, h]

lemma sendWebhookAux_zero (oracle : Nat → AxiosResult) (k : Nat) (e : JsError)
    (h : tryAttempt (oracle k) = .error e) :
    sendWebhookAux oracle k 0 = (.ok false, [.httpPost, .logError]) := by
  simp [sendWebhookAux, h]

lemma sendWebhookAux_noretry (oracle : Nat → AxiosResult) (k budget : Nat) (e : JsError)
    (h : tryAttempt (oracle k) = .error e) (hr : shouldRetry e = false) :
    sendWebhookAux oracle k budget = (.ok false, [.httpPost, .logError]) := by
  cases budget <;> simp [sendWebhookAux, h, hr]

lemma sendWebhookAux_retry (oracle : Nat → AxiosResult) (k budget : Nat) (e : JsError)
    (h : tryAttempt (oracle k) = .error e) (hr : shouldRetry e = true) :
    sendWebhookAux oracle k (budget + 1) =
      ((sendWebhookAux oracle (k + 1) budget).1,
        .httpPost :: .logError :: .logInfo :: .sleep (2 ^ k * 1000) ::
          (sendWebhookAux oracle (k + 1) budget).2) := by
  simp [sendWebhookAux, h, hr]

lemma sendWebhookAux_master (oracle : Nat → AxiosResult) :
    ∀ budget k,
      (∃ b, (sendWebhookAux oracle k budget).1 = Except.ok b) ∧
      1 ≤ countHttp (sendWebhookAux oracle k budget).2 ∧
      countHttp (sendWebhookAux oracle k budget).2 ≤ budget + 1 ∧
      sleepsOf (sendWebhookAux oracle k budget).2 =
        (List.range (countHttp (sendWebhookAux oracle k budget).2 - 1)).map
          (fun i => 2 ^ (k + i) * 1000) := by
  intro budget
  induction budget with
  | zero =>
    intro k
    cases h : tryAttempt (oracle k) with
    | ok b => rw [sendWebhookAux_ok oracle k 0 b h]; simp [countHttp, sleepsOf]
    | error e => rw [sendWebhookAux_zero oracle k e h]; simp [countHttp, sleepsOf]
  | succ budget ih =>
    intro k
    cases h : tryAttempt (oracle k) with
    | ok b => rw [sendWebhookAux_ok oracle k _ b h]; simp [countHttp, sleepsOf]
    | error e =>
      cases hr : shouldRetry e with
      | false =>
        rw [sendWebhookAux_noretry oracle k _ e h hr]; simp [countHttp, sleepsOf]
      | true =>
        obtain ⟨⟨b, hb⟩, h1, h2, h3⟩ := ih (k + 1)
        rw [sendWebhookAux_retry oracle k budget e h hr]
        simp only [countHttp, sleepsOf]
        refine ⟨⟨b, hb⟩, by omega, by omega, ?_⟩
        obtain ⟨c', hc⟩ :
            ∃ c', countHttp (sendWebhookAux oracle (k + 1) budget).2 = c' + 1 :=
          ⟨countHttp (sendWebhookAux oracle (k + 1) budget).2 - 1, by omega⟩
        rw [h3, hc]
        simp only [Nat.add_sub_cancel, List.range_succ_eq_map, List.map_cons,
          List.map_map]
        simp only [List.cons.injEq]
        refine ⟨by simp, List.map_congr_left ?_⟩
        intro i _
        have hki : k + 1 + i = k + (i + 1) := by omega
        simp [Function.comp, hki]

lemma sendWebhookAux_exhaust (oracle : Nat → AxiosResult)
    (hfail : ∀ j, retryableFail (oracle j)) :
    ∀ budget k,
      (sendWebhookAux oracle k budget).1 = Except.ok false ∧
      countHttp (sendWebhookAux oracle k budget).2 = budget + 1 := by
  intro budget
  induction budget with
  | zero =>
    intro k
    obtain ⟨e, he, -⟩ := hfail k
    rw [sendWebhookAux_zero oracle k e he]
    simp [countHttp]
  | succ budget ih =>
    intro k
    obtain ⟨e, he, hr⟩ := hfail k
    rw [sendWebhookAux_retry oracle k budget e he hr]
    obtain ⟨ih1, ih2⟩ := ih (k + 1)
    simp [countHttp, ih1, ih2]

/-- Claim C5: for every call to sendWebhook starting at retry counter 0,
a first response with HTTP status in [200,300) yields success with a
single attempt (zero retries); a first 4xx rejection yields failure with
a single attempt; persistent 5xx rejections, or persistent
ECONNRESET/ETIMEDOUT network errors, are retried up to the configured
maximum and yield failure after maxRetries + 1 attempts. -/
theorem C5_sendWebhook_retry_classification :
    ∀ (mr : Nat) (oracle : Nat → AxiosResult),
      (∀ s, oracle 0 = .ok s → 200 ≤ s → s < 300 →
        (sendWebhook mr oracle 0).1 = Except.ok true ∧
        countHttp (sendWebhook mr oracle 0).2 = 1) ∧
      (∀ s, oracle 0 = .errResp s → 400 ≤ s → s < 500 →
        (sendWebhook mr oracle 0).1 = Except.ok false ∧
        countHttp (sendWebhook mr oracle 0).2 = 1) ∧
      ((∀ j, ∃ s, 500 ≤ s ∧ oracle j = .errResp s) →
        (sendWebhook mr oracle 0).1 = Except.ok false ∧
        countHttp (sendWebhook mr oracle 0).2 = mr + 1) ∧
      ((∀ j, oracle j = .errCode "ECONNRESET" ∨ oracle j = .errCode "ETIMEDOUT") →
        (sendWebhook mr oracle 0).1 = Except.ok false ∧
        countHttp (sendWebhook mr oracle 0).2 = mr + 1) := by
  intro mr oracle
  refine ⟨?_, ?_, ?_, ?_⟩
  · intro s hs h2 h3
    have ht : tryAttempt (oracle 0) = .ok true := by
      rw [hs]; simp [tryAttempt, h2, h3]
    show (sendWebhookAux oracle 0 (mr - 0)).1 = Except.ok true ∧
      countHttp (sendWebhookAux oracle 0 (mr - 0)).2 = 1
    rw [sendWebhookAux_ok oracle 0 (mr - 0) true ht]
    simp [countHttp]
  · intro s hs h4 h5
    have ht : tryAttempt (oracle 0) = .error ⟨none, some s⟩ := by
      rw [hs]; simp [tryAttempt]
    have hnr : shouldRetry ⟨none, some s⟩ = false := by
      simp [shouldRetry]; omega
    show (sendWebhookAux oracle 0 (mr - 0)).1 = Except.ok false ∧
      countHttp (sendWebhookAux oracle 0 (mr - 0)).2 = 1
    rw [sendWebhookAux_noretry oracle 0 (mr - 0) _ ht hnr]
    simp [countHttp]
  · intro h5xx
    have hfail : ∀ j, retryableFail (oracle j) := by
      intro j
      obtain ⟨s, hs5, hs⟩ := h5xx j
      refine ⟨⟨none, some s⟩, by rw [hs]; simp [tryAttempt], ?_⟩
      simp [shouldRetry]; omega
    have h := sendWebhookAux_exhaust oracle hfail mr 0
    simpa [sendWebhook] using h
  · intro hnet
    have hfail : ∀ j, retryableFail (oracle j) := by
      intro j
      rcases hnet j with hs | hs
      · exact ⟨⟨some "ECONNRESET", none⟩, by rw [hs]; simp [tryAttempt],
          by simp [shouldRetry]⟩
      · exact ⟨⟨some "ETIMEDOUT", none⟩, by rw [hs]; simp [tryAttempt],
          by simp [shouldRetry]⟩
    have h := sendWebhookAux_exhaust oracle hfail mr 0
    simpa [sendWebhook] using h

theorem C5_witness :
    ((sendWebhook 3 (fun _ => .ok 200) 0).1 = Except.ok true ∧
      countHttp (sendWebhook 3 (fun _ => .ok 200) 0).2 = 1) ∧
    ((sendWebhook 3 (fun _ => .errResp 404) 0).1 = Except.ok false ∧
      countHttp (sendWebhook 3 (fun _ => .errResp 404) 0).2 = 1) ∧
    ((sendWebhook 3 (fun _ => .errResp 503) 0).1 = Except.ok false ∧
      countHttp (sendWebhook 3 (fun _ => .errResp 503) 0).2 = 3 + 1) ∧
    ((sendWebhook 3 (fun _ => .errCode "ECONNRESET") 0).1 = Except.ok false ∧
      countHttp (sendWebhook 3 (fun _ => .errCode "ECONNRESET") 0).2 = 3 + 1) := by
  refine ⟨?_, ?_, ?_, ?_⟩
  · exact (C5_sendWebhook_retry_classification 3 (fun _ => .ok 200)).1 200 rfl
      (by omega) (by omega)
  · exact (C5_sendWebhook_retry_classification 3 (fun _ => .errResp 404)).2.1 404 rfl
      (by omega) (by omega)
  · exact (C5_sendWebhook_retry_classification 3 (fun _ => .errResp 503)).2.2.1
      (fun j => ⟨503, by omega, rfl⟩)
  · exact (C5_sendWebhook_retry_classification 3
      (fun _ => .errCode "ECONNRESET")).2.2.2 (fun j => Or.inl rfl)

/-- Claim C6: sendWebhook always settles to a boolean (never an
exception): terminal failure, including retry exhaustion, is the value
false, and the backoff delays recorded before the retries are exactly
2 ^ attempt seconds for each attempt that retried. -/
theorem C6_sendWebhook_resolves_boolean_backoff :
    ∀ (mr : Nat) (oracle : Nat → AxiosResult) (k : Nat),
      (∃ b, (sendWebhook mr oracle k).1 = Except.ok b) ∧
      ((sendWebhook mr oracle k).1 ≠ Except.ok true →
        (sendWebhook mr oracle k).1 = Except.ok false) ∧
      sleepsOf (sendWebhook mr oracle k).2 =
        (List.range (countHttp (sendWebhook mr oracle k).2 - 1)).map
          (fun i => 2 ^ (k + i) * 1000) := by
  intro mr oracle k
  obtain ⟨⟨b, hb⟩, h1, h2, h3⟩ := sendWebhookAux_master oracle (mr - k) k
  refine ⟨⟨b, hb⟩, ?_, h3⟩
  intro hne
  cases b with
  | false => exact hb
  | true => exact absurd hb hne

theorem C6_witness :
    (sendWebhook 3 (fun _ => .errResp 503) 0).1 = Except.ok false ∧
    sleepsOf (sendWebhook 3 (fun _ => .errResp 503) 0).2 = [1000, 2000, 4000] := by
  have h := C6_sendWebhook_resolves_boolean_backoff 3 (fun _ => .errResp 503) 0
  have hfalse : (sendWebhook 3 (fun _ => AxiosResult.errResp 503) 0).1 ≠
      Except.ok true := by
    rw [show (sendWebhook 3 (fun _ => AxiosResult.errResp 503) 0).1 =
      Except.ok false from rfl]
    simp
  refine ⟨h.2.1 hfalse, ?_⟩
  rw [h.2.2]
  rfl

/-- Claim C10: a sendWebhook call starting at retry counter k with
k ≤ maxRetries makes at most maxRetries - k + 1 HTTP attempts; the
recursion terminates (the embedding is a total function). -/
theorem C10_sendWebhook_attempt_bound :
    ∀ (mr : Nat) (oracle : Nat → AxiosResult) (k : Nat), k ≤ mr →
      countHttp (sendWebhook mr oracle k).2 ≤ mr - k + 1 := by
  intro mr oracle k _
  exact (sendWebhookAux_master oracle (mr - k) k).2.2.1

theorem C10_witness :
    (0 : Nat) ≤ 3 ∧
    countHttp (sendWebhook 3 (fun _ => .errResp 503) 0).2 ≤ 3 - 0 + 1 :=
  ⟨by omega, C10_sendWebhook_attempt_bound 3 (fun _ => .errResp 503) 0 (by omega)⟩

/-! ### No database write happens anywhere in the delivery path -/

lemma dbInsert_not_mem_aux (t : String) (oracle : Nat → AxiosResult) :
    ∀ budget k, Effect.dbInsert t ∉ (sendWebhookAux oracle k budget).2 := by
  intro budget
  induction budget with
  | zero =>
    intro k
    cases h : tryAttempt (oracle k) with
    | ok b => rw [sendWebhookAux_ok oracle k 0 b h]; simp
    | error e => rw [sendWebhookAux_zero oracle k e h]; simp
  | succ budget ih =>
    intro k
    cases h : tryAttempt (oracle k) with
    | ok b => rw [sendWebhookAux_ok oracle k _ b h]; simp
    | error e =>
      cases hr : shouldRetry e with
      | false => rw [sendWebhookAux_noretry oracle k _ e h hr]; simp
      | true =>
        rw [sendWebhookAux_retry oracle k budget e h hr]
        simp [ih (k + 1)]

lemma dbInsert_not_mem_sendWebhook (t : String) (mr : Nat)
    (oracle : Nat → AxiosResult) (k : Nat) :
    Effect.dbInsert t ∉ (sendWebhook mr oracle k).2 :=
  dbInsert_not_mem_aux t oracle (mr - k) k

lemma dbInsert_not_mem_sendWebhooksGo (t : String) (mr b : Nat)
    (oracle : String → Nat → AxiosResult) :
    ∀ fuel whs, Effect.dbInsert t ∉ sendWebhooksGo mr b oracle fuel whs := by
  intro fuel
  induction fuel with
  | zero => intro whs; simp [sendWebhooksGo]
  | succ fuel ih =>
    intro whs
    cases whs with
    | nil => simp [sendWebhooksGo]
    | cons w ws =>
      intro hmem
      simp only [sendWebhooksGo] at hmem
      rcases List.mem_append.mp hmem with hflat | hrest
      · rcases List.mem_flatten.mp hflat with ⟨l, hl, hmem2⟩
        rcases List.mem_map.mp hl with ⟨wh, -, rfl⟩
        exact dbInsert_not_mem_sendWebhook t mr (oracle wh.url) 0 hmem2
      · by_cases hre : ((w :: ws).drop b).isEmpty
        · rw [if_pos hre] at hrest
          simp at hrest
        · rw [if_neg hre] at hrest
          rcases List.mem_cons.mp hrest with heq | hmem3
          · exact absurd heq (by simp)
          · exact ih _ hmem3

lemma dbInsert_not_mem_sendWebhooks (t : String) (mr b : Nat)
    (oracle : String → Nat → AxiosResult) (whs : List WebhookSub) :
    Effect.dbInsert t ∉ sendWebhooks mr b oracle whs :=
  dbInsert_not_mem_sendWebhooksGo t mr b oracle whs.length whs

lemma triggerWebhooks_error (s : String) (oracle : String → Nat → AxiosResult)
    (mr b : Nat) (ev : EventType) :
    triggerWebhooks (.error s) oracle mr b ev = [.trigger ev, .logError] := rfl

lemma triggerWebhooks_ok (whs : List WebhookSub)
    (oracle : String → Nat → AxiosResult) (mr b : Nat) (ev : EventType) :
    triggerWebhooks (.ok whs) oracle mr b ev =
      Effect.trigger ev ::
        (if (matchingWebhooks whs ev).isEmpty then []
         else sendWebhooks mr b oracle (matchingWebhooks whs ev)) := by
  have hbody : triggerBody (Except.ok whs) oracle mr b ev =
      if (matchingWebhooks whs ev).isEmpty then Except.ok []
      else Except.ok (sendWebhooks mr b oracle (matchingWebhooks whs ev)) := rfl
  by_cases hme : (matchingWebhooks whs ev).isEmpty
  · simp only [triggerWebhooks, hbody, if_pos hme]
  · simp only [triggerWebhooks, hbody, if_neg hme]

/-- Claim C1: refuted by the code — the delivery path persists no
Delivery Record.  No insert into webhook_deliveries (indeed no database
insert into any table) appears in the effect trace of sendWebhook, of a
sendWebhooks fan-out, or of a triggerWebhooks hand-off, whatever the
endpoint behaviour, registry contents, or retry configuration. -/
theorem C1_no_delivery_record_persisted :
    ∀ (t : String) (mr b k : Nat) (oracle1 : Nat → AxiosResult)
      (oracle : String → Nat → AxiosResult) (whs : List WebhookSub)
      (registry : Except String (List WebhookSub)) (ev : EventType),
      Effect.dbInsert t ∉ (sendWebhook mr oracle1 k).2 ∧
      Effect.dbInsert t ∉ sendWebhooks mr b oracle whs ∧
      Effect.dbInsert t ∉ triggerWebhooks registry oracle mr b ev := by
  intro t mr b k oracle1 oracle whs registry ev
  refine ⟨dbInsert_not_mem_sendWebhook t mr oracle1 k,
    dbInsert_not_mem_sendWebhooks t mr b oracle whs, ?_⟩
  cases registry with
  | error s => rw [triggerWebhooks_error]; simp
  | ok whs' =>
    rw [triggerWebhooks_ok]
    intro hmem
    rcases List.mem_cons.mp hmem with heq | hmem2
    · exact absurd heq (by simp)
    · by_cases hme : (matchingWebhooks whs' ev).isEmpty
      · rw [if_pos hme] at hmem2; simp at hmem2
      · rw [if_neg hme] at hmem2
        exact dbInsert_not_mem_sendWebhooks t mr b oracle _ hmem2

/-! ### Trigger counting -/

/-- Effects that the delivery engine itself can produce. -/
def deliveryEffect : Effect → Bool
  | .httpPost => true
  | .sleep _ => true
  | .logInfo => true
  | .logError => true
  | _ => false

lemma countTrigger_cons (ev : EventType) (x : Effect) (t : List Effect) :
    countTrigger ev (x :: t) =
      (if x = Effect.trigger ev then 1 else 0) + countTrigger ev t := by
  cases x <;> simp [countTrigger]

lemma countTrigger_append (ev : EventType) (t1 t2 : List Effect) :
    countTrigger ev (t1 ++ t2) = countTrigger ev t1 + countTrigger ev t2 := by
  induction t1 with
  | nil => simp [countTrigger]
  | cons x xs ih =>
    rw [List.cons_append, countTrigger_cons, countTrigger_cons, ih, Nat.add_assoc]

lemma countTrigger_zero_of_delivery (ev : EventType) :
    ∀ t : List Effect, (∀ e ∈ t, deliveryEffect e = true) →
      countTrigger ev t = 0 := by
  intro t
  induction t with
  | nil => intro _; rfl
  | cons x xs ih =>
    intro h
    rw [countTrigger_cons]
    have hx : deliveryEffect x = true := h x (List.mem_cons_self x xs)
    have hxs : countTrigger ev xs = 0 :=
      ih fun e he => h e (List.mem_cons_of_mem x he)
    have hne : x ≠ Effect.trigger ev := by
      intro heq; subst heq; simp [deliveryEffect] at hx
    rw [if_neg hne, hxs]

lemma delivery_only_aux (oracle : Nat → AxiosResult) :
    ∀ budget k, ∀ e ∈ (sendWebhookAux oracle k budget).2,
      deliveryEffect e = true := by
  intro budget
  induction budget with
  | zero =>
    intro k e
    cases h : tryAttempt (oracle k) with
    | ok b =>
      rw [sendWebhookAux_ok oracle k 0 b h]
      intro he
      simp at he
      rcases he with rfl | rfl <;> rfl
    | error er =>
      rw [sendWebhookAux_zero oracle k er h]
      intro he
      simp at he
      rcases he with rfl | rfl <;> rfl
  | succ budget ih =>
    intro k e
    cases h : tryAttempt (oracle k) with
    | ok b =>
      rw [sendWebhookAux_ok oracle k _ b h]
      intro he
      simp at he
      rcases he with rfl | rfl <;> rfl
    | error er =>
      cases hr : shouldRetry er with
      | false =>
        rw [sendWebhookAux_noretry oracle k _ er h hr]
        intro he
        simp at he
        rcases he with rfl | rfl <;> rfl
      | true =>
        rw [sendWebhookAux_retry oracle k budget er h hr]
        intro he
        simp only [List.mem_cons] at he
        rcases he with rfl | rfl | rfl | rfl | h'
        · rfl
        · rfl
        · rfl
        · rfl
        · exact ih (k + 1) e h'

lemma delivery_only_sendWebhook (mr : Nat) (oracle : Nat → AxiosResult) (k : Nat) :
    ∀ e ∈ (sendWebhook mr oracle k).2, deliveryEffect e = true :=
  delivery_only_aux oracle (mr - k) k

lemma delivery_only_sendWebhooksGo (mr b : Nat)
    (oracle : String → Nat → AxiosResult) :
    ∀ fuel whs, ∀ e ∈ sendWebhooksGo mr b oracle fuel whs,
      deliveryEffect e = true := by
  intro fuel
  induction fuel with
  | zero => intro whs e he; simp [sendWebhooksGo] at he
  | succ fuel ih =>
    intro whs e he
    cases whs with
    | nil => simp [sendWebhooksGo] at he
    | cons w ws =>
      simp only [sendWebhooksGo] at he
      rcases List.mem_append.mp he with hflat | hrest
      · rcases List.mem_flatten.mp hflat with ⟨l, hl, hmem2⟩
        rcases List.mem_map.mp hl with ⟨wh, -, rfl⟩
        exact delivery_only_sendWebhook mr (oracle wh.url) 0 e hmem2
      · by_cases hre : ((w :: ws).drop b).isEmpty
        · rw [if_pos hre] at hrest; simp at hrest
        · rw [if_neg hre] at hrest
          rcases List.mem_cons.mp hrest with heq | hmem3
          · subst heq; rfl
          · exact ih _ e hmem3

lemma delivery_only_sendWebhooks (mr b : Nat)
    (oracle : String → Nat → AxiosResult) (whs : List WebhookSub) :
    ∀ e ∈ sendWebhooks mr b oracle whs, deliveryEffect e = true :=
  delivery_only_sendWebhooksGo mr b oracle whs.length whs

lemma countTrigger_triggerWebhooks (registry : Except String (List WebhookSub))
    (oracle : String → Nat → AxiosResult) (mr b : Nat) (ev ev' : EventType) :
    countTrigger ev' (triggerWebhooks registry oracle mr b ev) =
      if ev = ev' then 1 else 0 := by
  cases registry with
  | error s =>
    rw [triggerWebhooks_error]
    rw [show ([Effect.trigger ev, Effect.logError] :
        List Effect) = Effect.trigger ev :: [Effect.logError] from rfl]
    rw [countTrigger_cons]
    by_cases hev : ev = ev'
    · subst hev; simp [countTrigger]
    · rw [if_neg (by simp [hev]), if_neg hev]; simp [countTrigger]
  | ok whs =>
    rw [triggerWebhooks_ok, countTrigger_cons]
    have hzero : countTrigger ev'
        (if (matchingWebhooks whs ev).isEmpty then []
         else sendWebhooks mr b oracle (matchingWebhooks whs ev)) = 0 := by
      split
      · rfl
      · exact countTrigger_zero_of_delivery ev' _
          (delivery_only_sendWebhooks mr b oracle _)
    rw [hzero]
    by_cases hev : ev = ev'
    · subst hev; simp
    · rw [if_neg (by simp [hev]), if_neg hev]

lemma statusChangedB_iff (p : JobPatch) (j : Job) :
    statusChangedB p j = true ↔ ∃ s, p.status = some s ∧ s ≠ j.status := by
  cases hp : p.status <;> simp [statusChangedB, hp]

lemma progressChangedB_iff (p : JobPatch) (j : Job) :
    progressChangedB p j = true ↔ ∃ q, p.progress = some q ∧ q ≠ j.progress := by
  cases hp : p.progress <;> simp [progressChangedB, hp]

lemma countTrigger_putJob_shape (t1 t2 : List Effect) (c : String) (ev : EventType) :
    countTrigger ev (Effect.dbUpdate "jobs" :: Effect.cacheDel c ::
        (t1 ++ t2 ++ [Effect.logInfo, Effect.respond 200])) =
      countTrigger ev t1 + countTrigger ev t2 := by
  rw [countTrigger_cons, countTrigger_cons, countTrigger_append, countTrigger_append]
  simp [countTrigger]

lemma putJob_trace_counts (mr b : Nat) (registry : Except String (List WebhookSub))
    (oracle : String → Nat → AxiosResult) (db : List Job) (id : String)
    (p : JobPatch) (now : Int) (j : Job)
    (hfind : db.find? (fun x => x.id == id) = some j) :
    countTrigger .status_change (putJob mr b registry oracle db id p now).trace =
      (if statusChangedB p j then 1 else 0) ∧
    countTrigger .progress_update (putJob mr b registry oracle db id p now).trace =
      (if progressChangedB p j then 1 else 0) := by
  simp only [putJob, hfind]
  constructor <;> rw [countTrigger_putJob_shape] <;>
    by_cases h1 : statusChangedB p j <;> by_cases h2 : progressChangedB p j <;>
      simp [h1, h2, countTrigger_triggerWebhooks, countTrigger]

/-- Claim C4: on a single-job update of an existing job, a status_change
event is handed off iff the patch carries a status different from the
previous one, and a progress_update event is handed off iff the patch
carries a progress different from the previous one; the two conditions
are independent (counts 1/0 in all four combinations). -/
theorem C4_update_event_dispatch :
    ∀ (mr b : Nat) (registry : Except String (List WebhookSub))
      (oracle : String → Nat → AxiosResult) (db : List Job) (id : String)
      (p : JobPatch) (now : Int) (j : Job),
      db.find? (fun x => x.id == id) = some j →
      (countTrigger .status_change
          (putJob mr b registry oracle db id p now).trace = 1 ↔
        ∃ s, p.status = some s ∧ s ≠ j.status) ∧
      (countTrigger .status_change
          (putJob mr b registry oracle db id p now).trace = 0 ↔
        ¬∃ s, p.status = some s ∧ s ≠ j.status) ∧
      (countTrigger .progress_update
          (putJob mr b registry oracle db id p now).trace = 1 ↔
        ∃ q, p.progress = some q ∧ q ≠ j.progress) ∧
      (countTrigger .progress_update
          (putJob mr b registry oracle db id p now).trace = 0 ↔
        ¬∃ q, p.progress = some q ∧ q ≠ j.progress) := by
  intro mr b registry oracle db id p now j hfind
  obtain ⟨hsc, hpu⟩ := putJob_trace_counts mr b registry oracle db id p now j hfind
  refine ⟨?_, ?_, ?_, ?_⟩
  · rw [hsc, ← statusChangedB_iff]
    by_cases h : statusChangedB p j <;> simp [h]
  · rw [hsc, ← statusChangedB_iff]
    by_cases h : statusChangedB p j <;> simp [h]
  · rw [hpu, ← progressChangedB_iff]
    by_cases h : progressChangedB p j <;> simp [h]
  · rw [hpu, ← progressChangedB_iff]
    by_cases h : progressChangedB p j <;> simp [h]

theorem C4_witness :
    countTrigger .status_change
      (putJob 3 10 (Except.ok []) (fun _ _ => AxiosResult.ok 200)
        [⟨"j1", "job", JobStatus.pending, 10, none, 0, 0, none⟩] "j1"
        ⟨some JobStatus.running, some 50⟩ 5).trace = 1 ∧
    countTrigger .progress_update
      (putJob 3 10 (Except.ok []) (fun _ _ => AxiosResult.ok 200)
        [⟨"j1", "job", JobStatus.pending, 10, none, 0, 0, none⟩] "j1"
        ⟨some JobStatus.running, some 50⟩ 5).trace = 1 := by
  have h := C4_update_event_dispatch 3 10 (Except.ok [])
    (fun _ _ => AxiosResult.ok 200)
    [⟨"j1", "job", JobStatus.pending, 10, none, 0, 0, none⟩] "j1"
    ⟨some JobStatus.running, some 50⟩ 5
    ⟨"j1", "job", JobStatus.pending, 10, none, 0, 0, none⟩ (by rfl)
  exact ⟨h.1.mpr ⟨JobStatus.running, rfl, by decide⟩,
    h.2.2.1.mpr ⟨50, rfl, by decide⟩⟩

lemma getLast?_putJob_shape (t1 t2 : List Effect) (c : String) :
    (Effect.dbUpdate "jobs" :: Effect.cacheDel c ::
        (t1 ++ t2 ++ [Effect.logInfo, Effect.respond 200])).getLast? =
      some (Effect.respond 200) := by
  have h : Effect.dbUpdate "jobs" :: Effect.cacheDel c ::
      (t1 ++ t2 ++ [Effect.logInfo, Effect.respond 200]) =
      (Effect.dbUpdate "jobs" :: Effect.cacheDel c ::
        (t1 ++ (t2 ++ [Effect.logInfo]))) ++ [Effect.respond 200] := by
    simp
  rw [h, List.getLast?_concat]

/-- Claim C3 (amended): the handler awaits the webhook hand-off, so the
HTTP response is the final effect of the trace — every delivery effect
(attempts, backoff sleeps) happens strictly before the response is
produced, on both the found and the not-found path. -/
theorem C3_amended_response_is_last_effect :
    ∀ (mr b : Nat) (registry : Except String (List WebhookSub))
      (oracle : String → Nat → AxiosResult) (db : List Job) (id : String)
      (p : JobPatch) (now : Int),
      ((putJob mr b registry oracle db id p now).trace).getLast? =
        some (Effect.respond (putJob mr b registry oracle db id p now).httpStatus) := by
  intro mr b registry oracle db id p now
  cases hfind : db.find? (fun x => x.id == id) with
  | none => simp [putJob, hfind]
  | some cur =>
    simp only [putJob, hfind]
    exact getLast?_putJob_shape _ _ _

/-- Claim C3 is false on the code: with one subscribed webhook and an
endpoint that keeps returning 503, the update handler performs the HTTP
attempt and even the 1000 ms retry backoff sleep strictly before the
200 response appears in the trace — the response waits for delivery. -/
theorem C3_counterexample_response_waits_for_delivery :
    Effect.httpPost ∈ ((putJob 1 10
        (Except.ok [⟨"w1", "http://h", [EventType.status_change], true⟩])
        (fun _ _ => AxiosResult.errResp 503)
        [⟨"j1", "job", JobStatus.pending, 0, none, 0, 0, none⟩] "j1"
        ⟨some JobStatus.running, none⟩ 5).trace.takeWhile
          (fun e => !(e == Effect.respond 200))) ∧
    Effect.sleep 1000 ∈ ((putJob 1 10
        (Except.ok [⟨"w1", "http://h", [EventType.status_change], true⟩])
        (fun _ _ => AxiosResult.errResp 503)
        [⟨"j1", "job", JobStatus.pending, 0, none, 0, 0, none⟩] "j1"
        ⟨some JobStatus.running, none⟩ 5).trace.takeWhile
          (fun e => !(e == Effect.respond 200))) ∧
    Effect.respond 200 ∈ (putJob 1 10
        (Except.ok [⟨"w1", "http://h", [EventType.status_change], true⟩])
        (fun _ _ => AxiosResult.errResp 503)
        [⟨"j1", "job", JobStatus.pending, 0, none, 0, 0, none⟩] "j1"
        ⟨some JobStatus.running, none⟩ 5).trace := by
  decide

/-- Claim C9: delivery failures are contained — the update handler
response status and resulting jobs table are identical whatever the
webhook registry query returns (including a query failure) and whatever
the endpoints do, and a failing hand-off body is caught and reduced to a
logged error. -/
theorem C9_delivery_failures_never_propagate :
    ∀ (mr b : Nat) (r1 r2 : Except String (List WebhookSub))
      (o1 o2 : String → Nat → AxiosResult) (db : List Job) (id : String)
      (p : JobPatch) (now : Int) (s : String) (ev : EventType),
      (putJob mr b r1 o1 db id p now).httpStatus =
        (putJob mr b r2 o2 db id p now).httpStatus ∧
      (putJob mr b r1 o1 db id p now).db = (putJob mr b r2 o2 db id p now).db ∧
      triggerWebhooks (Except.error s) o1 mr b ev =
        [Effect.trigger ev, Effect.logError] := by
  intro mr b r1 r2 o1 o2 db id p now s ev
  refine ⟨?_, ?_, triggerWebhooks_error s o1 mr b ev⟩ <;>
    cases hfind : db.find? (fun x => x.id == id) <;> simp [putJob, hfind]

/-- Claim C8: neither the expiry sweep nor the explicit single-job
delete ever hands off a webhook event or performs an HTTP attempt. -/
theorem C8_no_webhook_on_expiry_or_delete :
    ∀ (db : List Job) (now : Int) (id : String) (ev : EventType),
      Effect.trigger ev ∉ (cleanupExpiredJobs db now).2 ∧
      Effect.httpPost ∉ (cleanupExpiredJobs db now).2 ∧
      Effect.trigger ev ∉ (deleteJob db id).2 ∧
      Effect.httpPost ∉ (deleteJob db id).2 := by
  intro db now id ev
  refine ⟨?_, ?_, ?_, ?_⟩
  · simp only [cleanupExpiredJobs]
    split
    · simp
    · simp
  · simp only [cleanupExpiredJobs]
    split
    · simp
    · simp
  · simp only [deleteJob]
    split <;> simp
  · simp only [deleteJob]
    split <;> simp

/-- Claim C2 is violated by the bulk update path: a job that already has
completed_at = 1000 keeps it under the single-job PUT handler, but the
bulk update handler re-stamps it to the current time 2000 whenever the
patch sets status to completed. -/
theorem C2_bulk_update_restamps_completedAt :
    ((bulkUpdateOp 3 10 (Except.ok []) (fun _ _ => AxiosResult.ok 200)
        [⟨"j1", "job", JobStatus.completed, 100, none, 0, 500, some 1000⟩]
        "j1" ⟨some JobStatus.completed, none⟩ 2000).db.find?
          (fun j => j.id == "j1")).map (fun j => j.completed_at) =
      some (some 2000) ∧
    ((putJob 3 10 (Except.ok []) (fun _ _ => AxiosResult.ok 200)
        [⟨"j1", "job", JobStatus.completed, 100, none, 0, 500, some 1000⟩]
        "j1" ⟨some JobStatus.completed, none⟩ 2000).db.find?
          (fun j => j.id == "j1")).map (fun j => j.completed_at) =
      some (some 1000) := by
  decide

lemma expiredB_iff (j : Job) (now : Int) :
    expiredB j now = true ↔
      ∃ t, j.ttl = some t ∧ 0 < t ∧ j.created_at + t < now := by
  cases h : j.ttl <;> simp [expiredB, h]

/-- Claim C7: with distinct job ids, the expiry sweep deletes exactly
the jobs whose ttl is set, positive, and elapsed (created_at + ttl <
now), invalidates the cache entry of every deleted job, and never
touches a job without a ttl. -/
theorem C7_sweep_expired_exact :
    ∀ (db : List Job) (now : Int), (db.map Job.id).Nodup →
      (∀ j, j ∈ (cleanupExpiredJobs db now).1 ↔
        (j ∈ db ∧ ¬∃ t, j.ttl = some t ∧ 0 < t ∧ j.created_at + t < now)) ∧
      (∀ j ∈ db, (∃ t, j.ttl = some t ∧ 0 < t ∧ j.created_at + t < now) →
        Effect.cacheDel ("job:" ++ j.id) ∈ (cleanupExpiredJobs db now).2) ∧
      (∀ j ∈ db, j.ttl = none → j ∈ (cleanupExpiredJobs db now).1) := by
  intro db now hnd
  have hinj := List.inj_on_of_nodup_map hnd
  by_cases hE : (db.filter fun j => expiredB j now).isEmpty
  · have hnone : ∀ j ∈ db, expiredB j now = false := by
      intro j hj
      by_contra hcon
      have hmem : j ∈ db.filter fun j => expiredB j now :=
        List.mem_filter.mpr ⟨hj, by simpa using hcon⟩
      rw [List.isEmpty_iff.mp hE] at hmem
      simp at hmem
    have hclean : cleanupExpiredJobs db now = (db, []) := by
      unfold cleanupExpiredJobs
      rw [if_pos hE]
    have h1 : ∀ j, j ∈ (cleanupExpiredJobs db now).1 ↔
        (j ∈ db ∧ ¬∃ t, j.ttl = some t ∧ 0 < t ∧ j.created_at + t < now) := by
      intro j
      rw [hclean]
      constructor
      · intro hj
        refine ⟨hj, fun hex => ?_⟩
        have hfalse := hnone j hj
        rw [(expiredB_iff j now).mpr hex] at hfalse
        simp at hfalse
      · exact And.left
    refine ⟨h1, ?_, fun j hj _ => by rw [hclean]; exact hj⟩
    intro j hj hex
    have := hnone j hj
    rw [(expiredB_iff j now).mpr hex] at this
    simp at this
  · have hclean : cleanupExpiredJobs db now =
        (db.filter fun j =>
          !((((db.filter fun x => expiredB x now).map fun x => x.id).contains j.id)),
         Effect.dbDelete "jobs" ::
           (((db.filter fun x => expiredB x now).map fun x => x.id).map
             fun i => Effect.cacheDel ("job:" ++ i)) ++ [Effect.logInfo]) := by
      unfold cleanupExpiredJobs
      rw [if_neg hE]
    have hkey : ∀ j ∈ db,
        ((((db.filter fun x => expiredB x now).map fun x => x.id).contains j.id)
          = true ↔ expiredB j now = true) := by
      intro j hj
      constructor
      · intro hc
        have hmem : j.id ∈ (db.filter fun x => expiredB x now).map fun x => x.id := by
          simpa using hc
        rcases List.mem_map.mp hmem with ⟨x, hx, hxid⟩
        obtain ⟨hxdb, hxexp⟩ := List.mem_filter.mp hx
        have hxegj : x = j := hinj hxdb hj hxid
        rw [← hxegj]
        simpa using hxexp
      · intro hex
        have hmem : j.id ∈ (db.filter fun x => expiredB x now).map fun x => x.id :=
          List.mem_map.mpr ⟨j, List.mem_filter.mpr ⟨hj, by simpa using hex⟩, rfl⟩
        simpa using hmem
    have h1 : ∀ j, j ∈ (cleanupExpiredJobs db now).1 ↔
        (j ∈ db ∧ ¬∃ t, j.ttl = some t ∧ 0 < t ∧ j.created_at + t < now) := by
      intro j
      rw [hclean]
      simp only [List.mem_filter, Bool.not_eq_eq_eq_not, Bool.not_true]
      constructor
      · rintro ⟨hj, hnb⟩
        refine ⟨hj, fun hex => ?_⟩
        have := (hkey j hj).mpr ((expiredB_iff j now).mpr hex)
        rw [this] at hnb
        simp at hnb
      · rintro ⟨hj, hnex⟩
        refine ⟨hj, ?_⟩
        have hexp : expiredB j now = false := by
          by_contra hcon
          exact hnex ((expiredB_iff j now).mp (by simpa using hcon))
        by_contra hcon2
        have : (((db.filter fun x => expiredB x now).map fun x => x.id).contains
            j.id) = true := by
          revert hcon2
          cases h : (((db.filter fun x => expiredB x now).map fun x => x.id).contains
            j.id) <;> simp [h]
        rw [(hkey j hj).mp this] at hexp
        simp at hexp
    refine ⟨h1, ?_, ?_⟩
    · intro j hj hex
      rw [hclean]
      have hmem : j.id ∈ (db.filter fun x => expiredB x now).map fun x => x.id :=
        List.mem_map.mpr ⟨j,
          List.mem_filter.mpr ⟨hj, by simpa using (expiredB_iff j now).mpr hex⟩, rfl⟩
      have hcd : Effect.cacheDel ("job:" ++ j.id) ∈
          ((db.filter fun x => expiredB x now).map fun x => x.id).map
            (fun i => Effect.cacheDel ("job:" ++ i)) :=
        List.mem_map.mpr ⟨j.id, hmem, rfl⟩
      exact List.mem_cons_of_mem _ (List.mem_append_left _ hcd)
    · intro j hj httl
      refine (h1 j).mpr ⟨hj, ?_⟩
      rintro ⟨t, ht, -⟩
      rw [httl] at ht
      cases ht

/-- A job two hours old with a one hour ttl (expired). -/
def jobA : Job := ⟨"a", "a", .pending, 0, some 3600000, 0, 0, none⟩

/-- A job thirty minutes old with a one hour ttl (not yet expired). -/
def jobB : Job := ⟨"b", "b", .pending, 0, some 3600000, 5400000, 0, none⟩

/-- An arbitrarily old job with no ttl (never expires). -/
def jobC : Job := ⟨"c", "c", .pending, 0, none, -999999, 0, none⟩

/-- The sample jobs table for the sweep witness, at now = 7200000 ms. -/
def sweepDb : List Job := [jobA, jobB, jobC]

theorem C7_witness :
    (sweepDb.map Job.id).Nodup ∧
    jobA ∉ (cleanupExpiredJobs sweepDb 7200000).1 ∧
    jobB ∈ (cleanupExpiredJobs sweepDb 7200000).1 ∧
    jobC ∈ (cleanupExpiredJobs sweepDb 7200000).1 ∧
    Effect.cacheDel "job:a" ∈ (cleanupExpiredJobs sweepDb 7200000).2 := by
  have h := C7_sweep_expired_exact sweepDb 7200000 (by decide)
  refine ⟨by decide, ?_, ?_, ?_, ?_⟩
  · intro hmem
    have hnex := ((h.1 jobA).mp hmem).2
    exact hnex ⟨3600000, rfl, by decide, by decide⟩
  · refine (h.1 jobB).mpr ⟨by decide, ?_⟩
    rintro ⟨t, ht, h0, hlt⟩
    cases ht
    revert hlt
    decide
  · exact h.2.2 jobC (by decide) rfl
  · exact h.2.1 jobA (by decide) ⟨3600000, rfl, by decide, by decide⟩
